import Mathlib

/-
Verification of the PrintJobSeeder job-session orchestrator (src/app.py).

The definitions below are a shallow embedding of the Python source:
pure string manipulation is embedded directly, the HTTP transport is
abstracted as an outcome oracle (the network call itself is I/O), and the
server-sent-events execution loop of stream_jobs is embedded as a state
machine producing the final session state.  Line numbers in the doc
comments refer to src/app.py.
-/

/-- Embedding of the whitespace test used by Python str.strip for the
characters that occur in this application (space, tab, newline, carriage
return). -/
def isSpaceChar (c : Char) : Bool :=
  c = ' ' || c = '\t' || c = '\n' || c = '\r'

/-- Embedding of Python str.split(sep) for a one-character separator:
walks the character list, cutting at every separator occurrence; the
second argument is the reversed current chunk.  Python semantics: the
empty string splits to one empty chunk. -/
def pySplit (sep : Char) : List Char → List Char → List (List Char)
  | [], cur => [cur.reverse]
  | c :: rest, cur =>
    if c = sep then cur.reverse :: pySplit sep rest []
    else pySplit sep rest (c :: cur)

/-- Embedding of Python str.strip(): drop whitespace from both ends. -/
def pyStrip (l : List Char) : List Char :=
  ((l.dropWhile isSpaceChar).reverse.dropWhile isSpaceChar).reverse

/-- Python str.strip() on a Lean String. -/
def pyStripS (s : String) : String := String.mk (pyStrip s.data)

/-- Embedding of the comma-list parsing used at src/app.py:1194-1196 and
1490-1492: [u.strip() for u in s.split(',') if u.strip()]. -/
def splitTrim (s : String) : List String :=
  ((pySplit ',' s.data []).map (fun l => String.mk (pyStrip l))).filter
    (fun t => t ≠ "")

/-- Embedding of Python slicing s[:n] (first n characters). -/
def pyTake (s : String) (n : Nat) : String := String.mk (s.data.take n)

/-- The character list of the extension ".pdf". -/
def pdfChars : List Char := ['.', 'p', 'd', 'f']

/-- Embedding of Python str.endswith(suf): the final len(suf) characters
equal suf (Python: s[len(s)-len(suf):] == suf). -/
def pyEndsWith (l suf : List Char) : Bool :=
  decide (l.drop (l.length - suf.length) = suf)

/-- Embedding of job['filename'].lower().endswith('.pdf')
(src/app.py:1236 and 1532). -/
def lowerEndsWithPdf (s : String) : Bool :=
  pyEndsWith (s.data.map Char.toLower) pdfChars

/-- Embedding of the filename normalization at src/app.py:1235-1237 (and
identically 1531-1533): append ".pdf" unless the name already ends in
".pdf" case-insensitively. -/
def normalizeFilename (s : String) : String :=
  if lowerEndsWithPdf s then s else s ++ ".pdf"

/-- Round-robin selection usernames[i % len(usernames)] used at
src/app.py:1227-1229 (and 1523-1525).  The default is irrelevant: the
lists reaching this expression are validated non-empty. -/
def cyc (l : List String) (i : Nat) : String := l.getD (i % l.length) ""

/-- Outcome of the one HTTP POST performed for a job, as distinguished by
the exception handlers of send_single_job and send_single_job_from_buffer
(src/app.py:1647-1695, 1739-1787): a response with a status code and a
body, a requests timeout, or any other raised fault carrying its
description string str(e). -/
inductive HttpOutcome where
  | response (status : Int) (body : String)
  | timeout
  | fault (description : String)
deriving Repr, DecidableEq

/-- Embedding of the result dictionaries built by send_single_job and
send_single_job_from_buffer (src/app.py:1663-1695, 1755-1787) and by the
per-job exception handler of stream_jobs (src/app.py:1414-1423). -/
structure JobResult where
  job_number : Nat
  success : Bool
  status_code : Option Int
  filename : String
  username : String
  printer : String
  industry : String
  response : String
deriving Repr, DecidableEq

/-- Embedding of the outcome classification shared verbatim by
send_single_job (src/app.py:1663-1695) and send_single_job_from_buffer
(src/app.py:1755-1787).  Obtaining the document bytes and performing the
POST are I/O; the transport outcome is the HttpOutcome argument.
On a response: success iff status in [200, 201, 202], echo the status and
response.text[:500] if response.text else ''.  On Timeout: the fixed
string.  On any other exception: str(e). -/
def send_single_job_result (outcome : HttpOutcome)
    (filename username printer industry : String) (job_number : Nat) :
    JobResult :=
  match outcome with
  | .response status body =>
      { job_number := job_number
        success := ([200, 201, 202] : List Int).contains status
        status_code := some status
        filename := filename
        username := username
        printer := printer
        industry := industry
        response := if body ≠ "" then pyTake body 500 else "" }
  | .timeout =>
      { job_number := job_number
        success := false
        status_code := none
        filename := filename
        username := username
        printer := printer
        industry := industry
        response := "Request timed out" }
  | .fault description =>
      { job_number := job_number
        success := false
        status_code := none
        filename := filename
        username := username
        printer := printer
        industry := industry
        response := description }

/-- Embedding of the per-industry configuration dictionary as consumed by
start_jobs (src/app.py:1190-1199) after the int() coercions: num_jobs as
an integer, the three comma lists as raw strings, pdf_source, and the
page range. -/
structure IndustryConfig where
  num_jobs : Int
  usernames : String
  printers : String
  filenames : String
  pdf_source : String
  min_pages : Int
  max_pages : Int
deriving Repr, DecidableEq

/-- Embedding of the job dictionaries built at src/app.py:1225-1234 (and
1521-1530). -/
structure Job where
  industry : String
  username : String
  printer : String
  filename : String
  pdf_source : String
  min_pages : Int
  max_pages : Int
  temp_path : Option String
deriving Repr, DecidableEq

/-- Embedding of the per-industry body of the queue-building loop of
start_jobs (src/app.py:1189-1238): skip industries with num_jobs <= 0,
validate the three comma lists, require a staged upload when pdf_source
is "upload" (the upload argument is the staged temp path for this
industry, if any), then emit exactly num_jobs descriptors by round-robin
selection with the filename normalized to end in ".pdf". -/
def buildIndustryJobs (industry : String) (cfg : IndustryConfig)
    (upload : Option String) : Except String (List Job) :=
  if cfg.num_jobs ≤ 0 then .ok []
  else
    let usernames := splitTrim cfg.usernames
    let printers := splitTrim cfg.printers
    let filenames := splitTrim cfg.filenames
    if usernames = [] then
      .error (industry ++ ": At least one username is required")
    else if printers = [] then
      .error (industry ++ ": At least one printer is required")
    else if filenames = [] then
      .error (industry ++ ": At least one filename is required")
    else
      let temp_path : Option String :=
        if cfg.pdf_source = "upload" then upload else none
      if cfg.pdf_source = "upload" ∧ temp_path = none then
        .error (industry ++ ": No file uploaded")
      else
        .ok ((List.range cfg.num_jobs.toNat).map (fun i =>
          { industry := industry
            username := cyc usernames i
            printer := cyc printers i
            filename := normalizeFilename (cyc filenames i)
            pdf_source := cfg.pdf_source
            min_pages := cfg.min_pages
            max_pages := cfg.max_pages
            temp_path := temp_path }))

/-- Embedding of the full queue-building loop of start_jobs
(src/app.py:1189-1238): industries are processed in order, the first
validation failure aborts, and per-industry job lists are concatenated.
The uploads argument maps an industry name to its staged upload temp
path, if a file was staged for it. -/
def buildAll : List (String × IndustryConfig) → (String → Option String) →
    Except String (List Job)
  | [], _ => .ok []
  | (ind, cfg) :: rest, uploads =>
    match buildIndustryJobs ind cfg (uploads ind) with
    | .error e => .error e
    | .ok jobs =>
      match buildAll rest uploads with
      | .error e => .error e
      | .ok restJobs => .ok (jobs ++ restJobs)

/-- Embedding of the validation and pre-shuffle queue construction of the
/api/start-jobs endpoint (src/app.py:1156-1241): the URL must be
non-empty after stripping, at least one industry must be configured, the
per-industry loop must succeed, and the aggregate queue must be
non-empty.  The random shuffle (line 1244) and session registration
(lines 1247-1263) follow and do not alter the queue contents. -/
def start_jobs_queue (url : String)
    (configs : List (String × IndustryConfig))
    (uploads : String → Option String) : Except String (List Job) :=
  if pyStripS url = "" then .error "URL is required"
  else if configs = [] then
    .error "At least one industry must be configured"
  else
    match buildAll configs uploads with
    | .error e => .error e
    | .ok all_jobs =>
      if all_jobs = [] then .error "No jobs to send" else .ok all_jobs

/-- Transcription of the per-industry queue-building body of the
deprecated /api/send-jobs endpoint (src/app.py:1485-1534), kept as a
separate definition so the two endpoints can be compared. -/
def buildIndustryJobsSend (industry : String) (cfg : IndustryConfig)
    (upload : Option String) : Except String (List Job) :=
  if cfg.num_jobs ≤ 0 then .ok []
  else
    let usernames := splitTrim cfg.usernames
    let printers := splitTrim cfg.printers
    let filenames := splitTrim cfg.filenames
    if usernames = [] then
      .error (industry ++ ": At least one username is required")
    else if printers = [] then
      .error (industry ++ ": At least one printer is required")
    else if filenames = [] then
      .error (industry ++ ": At least one filename is required")
    else
      let temp_path : Option String :=
        if cfg.pdf_source = "upload" then upload else none
      if cfg.pdf_source = "upload" ∧ temp_path = none then
        .error (industry ++ ": No file uploaded")
      else
        .ok ((List.range cfg.num_jobs.toNat).map (fun i =>
          { industry := industry
            username := cyc usernames i
            printer := cyc printers i
            filename := normalizeFilename (cyc filenames i)
            pdf_source := cfg.pdf_source
            min_pages := cfg.min_pages
            max_pages := cfg.max_pages
            temp_path := temp_path }))

/-- Transcription of the queue-building loop of /api/send-jobs
(src/app.py:1485-1534). -/
def buildAllSend : List (String × IndustryConfig) →
    (String → Option String) → Except String (List Job)
  | [], _ => .ok []
  | (ind, cfg) :: rest, uploads =>
    match buildIndustryJobsSend ind cfg (uploads ind) with
    | .error e => .error e
    | .ok jobs =>
      match buildAllSend rest uploads with
      | .error e => .error e
      | .ok restJobs => .ok (jobs ++ restJobs)

/-- Transcription of the validation and pre-shuffle queue construction of
the deprecated /api/send-jobs endpoint (src/app.py:1454-1540). -/
def send_jobs_queue (url : String)
    (configs : List (String × IndustryConfig))
    (uploads : String → Option String) : Except String (List Job) :=
  if pyStripS url = "" then .error "URL is required"
  else if configs = [] then
    .error "At least one industry must be configured"
  else
    match buildAllSend configs uploads with
    | .error e => .error e
    | .ok all_jobs =>
      if all_jobs = [] then .error "No jobs to send" else .ok all_jobs

/-- Embedding of Python random.uniform(a, b) = a + (b-a) * u where u is
the underlying random() draw in [0, 1). -/
def pyUniform (a b u : ℚ) : ℚ := a + (b - a) * u

/-- Embedding of generate_random_delay (src/app.py:1135-1152).  The two
random draws of the random path are passed explicitly: rand is the
stratum draw random.random() in [0, 1) and u is the draw underlying the
selected random.uniform call. -/
def generate_random_delay (timing_mode : String)
    (fixed_delay min_delay max_delay : ℚ) (rand u : ℚ) : ℚ :=
  if timing_mode = "fixed" then fixed_delay
  else if timing_mode = "random" then
    if rand < 0.5 then pyUniform 0.5 3.0 u
    else if rand < 0.8 then pyUniform 3.0 30.0 u
    else pyUniform 30.0 (min max_delay 180.0) u
  else 1.0

/-- The session fields read or written by the stop-jobs endpoint
(src/app.py:1275-1292) and by the status bookkeeping of the execution
loop. -/
structure SessionState where
  status : String
  completed : Nat
  total : Nat
  stop_requested : Bool
deriving Repr, DecidableEq

/-- The snapshot returned by /api/stop-jobs (src/app.py:1287-1292):
completed and total counts at the moment of the request. -/
structure StopResponse where
  completed : Nat
  total : Nat
deriving Repr, DecidableEq

/-- Embedding of the /api/stop-jobs handler (src/app.py:1275-1292) acting
on the session registry (the process-wide job_sessions dictionary,
modelled as an association list): an unknown session id yields the 404
error and leaves the registry untouched; otherwise stop_requested is set
to True, status is set to "stopping", and the current completed and
total counts are returned.  The handler never touches the job loop
itself. -/
def stop_jobs (registry : List (String × SessionState)) (sid : String) :
    List (String × SessionState) × Except String StopResponse :=
  match registry.lookup sid with
  | none => (registry, .error "Session not found")
  | some s =>
    (registry.map (fun p =>
      if p.1 = sid then
        (p.1, { s with stop_requested := true, status := "stopping" })
      else p),
     .ok { completed := s.completed, total := s.total })

/-- Final state of one stream attachment of a session: the accumulated
results, the completed counter, the terminal status string, and the
delay in seconds after which the session is scheduled for removal from
the registry (none when no cleanup thread is spawned). -/
structure RunResult where
  results : List JobResult
  completed : Nat
  status : String
  evictionDelay : Option Nat
deriving Repr, DecidableEq

/-- Observation of the stop_requested flag of the session at the top of loop
iteration i (src/app.py:1345).  The flag is monotone, set only by
stop_jobs: stopAt = some k models a cancellation request arriving after
the dispatch of job k (1-based) and before job k+1 starts, so the check
sees True at every iteration index i >= k; stopAt = none models a run
with no cancellation. -/
def stopSeen (stopAt : Option Nat) (i : Nat) : Bool :=
  match stopAt with
  | none => false
  | some k => decide (k ≤ i)

/-- Embedding of the job loop of the stream_jobs generator
(src/app.py:1343-1444).  env gives the transport outcome of the dispatch
at each queue index (the POST itself, PDF generation and file copying
are I/O; a raised exception is a fault outcome, classified at
src/app.py:1413-1423 exactly as in send_single_job).  Each iteration
first checks stop_requested: if set, status becomes "stopped" and the
generator returns at once, without spawning the cleanup thread.  Else
the descriptor is dispatched, the result appended, completed set to i+1.
When the queue is exhausted status becomes "complete" and the cleanup
thread scheduling eviction after 300 seconds is spawned
(src/app.py:1439-1444).  The inter-job sleep only re-checks the flag and
never changes results or status, so it is not part of the state. -/
def runLoopAux (env : Nat → HttpOutcome) (stopAt : Option Nat) :
    List Job → Nat → List JobResult → Nat → RunResult
  | [], _, acc, completed =>
    { results := acc, completed := completed, status := "complete",
      evictionDelay := some 300 }
  | job :: rest, i, acc, completed =>
    if stopSeen stopAt i then
      { results := acc, completed := completed, status := "stopped",
        evictionDelay := none }
    else
      runLoopAux env stopAt rest (i + 1)
        (acc ++ [send_single_job_result (env i) job.filename job.username
          job.printer job.industry (i + 1)])
        (i + 1)

/-- One full stream attachment of a fresh session (status "running",
src/app.py:1330): run the loop from queue index 0 with no results and a
completed count of 0. -/
def stream_jobs_run (env : Nat → HttpOutcome) (stopAt : Option Nat)
    (jobs : List Job) : RunResult :=
  runLoopAux env stopAt jobs 0 [] 0

/-- The sequence of results produced by dispatching a job segment
starting at queue index i: job numbers are i+1, i+2, ... -/
def dispatchSeg (env : Nat → HttpOutcome) : Nat → List Job →
    List JobResult
  | _, [] => []
  | i, job :: rest =>
    send_single_job_result (env i) job.filename job.username job.printer
      job.industry (i + 1) :: dispatchSeg env (i + 1) rest

/-- The set of validation error messages start_jobs can emit for one
industry (src/app.py:1201-1221). -/
def validationMessage (ind e : String) : Prop :=
  e = ind ++ ": At least one username is required" ∨
  e = ind ++ ": At least one printer is required" ∨
  e = ind ++ ": At least one filename is required" ∨
  e = ind ++ ": No file uploaded"

/-- A defect of one industry configuration that start_jobs rejects: an
empty comma list after trimming, or upload source with no staged file. -/
def industryDefect (cfg : IndustryConfig) (upload : Option String) :
    Prop :=
  splitTrim cfg.usernames = [] ∨ splitTrim cfg.printers = [] ∨
  splitTrim cfg.filenames = [] ∨
  (cfg.pdf_source = "upload" ∧ upload = none)

/-- A transport environment in which every dispatch times out; used to
instantiate theorems at concrete inputs. -/
def envT : Nat → HttpOutcome := fun _ => HttpOutcome.timeout

/-- Concrete job descriptors used to instantiate the loop theorems. -/
def jobA : Job :=
  ⟨"healthcare", "u1", "p1", "a.pdf", "generate", 1, 1, none⟩

/-- A second concrete job descriptor. -/
def jobB : Job :=
  ⟨"finance", "u2", "p2", "b.pdf", "generate", 1, 1, none⟩

/-- A configuration with a negative num_jobs, which the builder skips. -/
def cfgNegative : IndustryConfig := ⟨-1, "u", "p", "f.pdf", "generate", 1, 15⟩

/-- A configuration whose filename list entry lacks the .pdf extension. -/
def cfgReport : IndustryConfig := ⟨1, "u", "p", "report", "generate", 1, 15⟩

/-- A configuration with an empty username list. -/
def cfgNoUser : IndustryConfig := ⟨1, "", "p", "f", "generate", 1, 15⟩

/-- A configuration with zero jobs. -/
def cfgZero : IndustryConfig := ⟨0, "u", "p", "f", "generate", 1, 15⟩

theorem lookup_update (reg : List (String × SessionState)) (sid : String)
    (s' : SessionState) :
    (reg.map (fun p => if p.1 = sid then (p.1, s') else p)).lookup sid =
      (reg.lookup sid).map (fun _ => s') := by
  induction reg with
  | nil => rfl
  | cons hd tl ih =>
    obtain ⟨k, v⟩ := hd
    rw [List.map_cons]
    by_cases h : k = sid
    · subst h
      rw [show (if ((k, v) : String × SessionState).1 = k then ((k, v).1, s')
            else (k, v)) = (k, s') from if_pos rfl]
      simp
    · rw [show (if ((k, v) : String × SessionState).1 = sid then ((k, v).1, s')
            else (k, v)) = (k, v) from if_neg h]
      rw [List.lookup_cons, List.lookup_cons]
      have hbeq : (sid == k) = false := by
        simp
        exact Ne.symm h
      rw [hbeq]
      exact ih

theorem map_update_idem (reg : List (String × SessionState)) (sid : String)
    (s' : SessionState) :
    ((reg.map (fun p => if p.1 = sid then (p.1, s') else p)).map
        (fun p => if p.1 = sid then (p.1, s') else p)) =
      reg.map (fun p => if p.1 = sid then (p.1, s') else p) := by
  rw [List.map_map]
  apply List.map_congr_left
  intro p _
  by_cases h : p.1 = sid <;> simp [h]

theorem stop_jobs_idem (reg : List (String × SessionState)) (sid : String)
    (s : SessionState) (hs : reg.lookup sid = some s) :
    stop_jobs (stop_jobs reg sid).1 sid =
      ((stop_jobs reg sid).1,
       Except.ok { completed := s.completed, total := s.total }) := by
  have h1 : stop_jobs reg sid =
      (reg.map (fun p => if p.1 = sid then
          (p.1, { s with stop_requested := true, status := "stopping" })
        else p),
       Except.ok { completed := s.completed, total := s.total }) := by
    unfold stop_jobs
    rw [hs]
  rw [h1]
  have h2 : (reg.map (fun p => if p.1 = sid then
        (p.1, { s with stop_requested := true, status := "stopping" })
      else p)).lookup sid =
      some { s with stop_requested := true, status := "stopping" } := by
    rw [lookup_update, hs]
    rfl
  unfold stop_jobs
  rw [h2]
  exact Prod.ext (map_update_idem reg sid _) rfl

theorem send_single_job_result_number (o : HttpOutcome)
    (f u p ind : String) (n : Nat) :
    (send_single_job_result o f u p ind n).job_number = n := by
  cases o <;> rfl

theorem dispatchSeg_length (env : Nat → HttpOutcome) :
    ∀ (js : List Job) (i : Nat), (dispatchSeg env i js).length = js.length := by
  intro js
  induction js with
  | nil => intro i; rfl
  | cons hd tl ih =>
    intro i
    simp [dispatchSeg, ih]

theorem dispatchSeg_numbers (env : Nat → HttpOutcome) :
    ∀ (js : List Job) (i : Nat),
      (dispatchSeg env i js).map JobResult.job_number =
        List.range' (i + 1) js.length := by
  intro js
  induction js with
  | nil => intro i; rfl
  | cons hd tl ih =>
    intro i
    rw [List.length_cons, List.range'_succ]
    simp only [dispatchSeg, List.map_cons]
    rw [send_single_job_result_number, ih]

theorem runLoopAux_stop (env : Nat → HttpOutcome) (k : Nat) :
    ∀ (jobs : List Job) (i : Nat) (acc : List JobResult) (c : Nat),
      i ≤ k → k - i < jobs.length →
      runLoopAux env (some k) jobs i acc c =
        { results := acc ++ dispatchSeg env i (jobs.take (k - i)),
          completed := if k - i = 0 then c else k,
          status := "stopped", evictionDelay := none } := by
  intro jobs
  induction jobs with
  | nil =>
    intro i acc c hik hlen
    simp at hlen
  | cons job rest ih =>
    intro i acc c hik hlen
    by_cases h : k ≤ i
    · have hki : k = i := Nat.le_antisymm h hik
      subst hki
      rw [runLoopAux]
      rw [show stopSeen (some k) k = true by simp [stopSeen]]
      rw [if_pos rfl, Nat.sub_self, List.take_zero]
      simp [dispatchSeg]
    · have hik' : i + 1 ≤ k := Nat.lt_of_not_le h
      obtain ⟨n, hn⟩ : ∃ n, k - i = n + 1 := ⟨k - i - 1, by omega⟩
      have hkn : k - (i + 1) = n := by omega
      have hlen' : k - (i + 1) < rest.length := by
        rw [List.length_cons] at hlen
        omega
      rw [runLoopAux]
      rw [show stopSeen (some k) i = false by simp [stopSeen]; omega]
      simp only [Bool.false_eq_true, if_false]
      rw [ih (i + 1) _ (i + 1) hik' hlen']
      rw [hkn, hn, List.take_succ_cons]
      simp only [dispatchSeg]
      have hcomp : (if n = 0 then i + 1 else k) = (if n + 1 = 0 then c else k) := by
        by_cases h2 : n = 0
        · rw [if_pos h2, if_neg (by omega)]
          omega
        · rw [if_neg h2, if_neg (by omega)]
      rw [hcomp]
      simp [List.append_assoc]

theorem runLoopAux_none (env : Nat → HttpOutcome) :
    ∀ (jobs : List Job) (i : Nat) (acc : List JobResult) (c : Nat),
      runLoopAux env none jobs i acc c =
        { results := acc ++ dispatchSeg env i jobs,
          completed := if jobs.isEmpty then c else i + jobs.length,
          status := "complete", evictionDelay := some 300 } := by
  intro jobs
  induction jobs with
  | nil =>
    intro i acc c
    simp [runLoopAux, dispatchSeg]
  | cons job rest ih =>
    intro i acc c
    rw [runLoopAux]
    rw [show stopSeen none i = false from rfl]
    simp only [Bool.false_eq_true, if_false]
    rw [ih (i + 1) _ (i + 1)]
    simp only [dispatchSeg, List.isEmpty_cons, List.length_cons]
    have hcomp : (if rest.isEmpty = true then i + 1 else i + 1 + rest.length) =
        i + (rest.length + 1) := by
      by_cases h2 : rest.isEmpty
      · rw [if_pos h2]
        rw [List.isEmpty_iff] at h2
        subst h2
        rfl
      · rw [if_neg h2]
        omega
    rw [hcomp]
    simp [List.append_assoc]

theorem runLoopAux_terminal (env : Nat → HttpOutcome) (stopAt : Option Nat) :
    ∀ (jobs : List Job) (i : Nat) (acc : List JobResult) (c : Nat),
      (let out := runLoopAux env stopAt jobs i acc c
       (out.status = "complete" ∧ out.evictionDelay = some 300) ∨
       (out.status = "stopped" ∧ out.evictionDelay = none)) := by
  intro jobs
  induction jobs with
  | nil =>
    intro i acc c
    left
    exact ⟨rfl, rfl⟩
  | cons job rest ih =>
    intro i acc c
    by_cases h : stopSeen stopAt i
    · right
      rw [runLoopAux]
      rw [h]
      exact ⟨rfl, rfl⟩
    · rw [runLoopAux]
      rw [show stopSeen stopAt i = false by simp at h; exact h]
      simp only [Bool.false_eq_true, if_false]
      exact ih (i + 1) _ (i + 1)

theorem runLoopAux_some_results (env : Nat → HttpOutcome) (k : Nat) :
    ∀ (jobs : List Job) (i : Nat) (acc : List JobResult) (c : Nat),
      (runLoopAux env (some k) jobs i acc c).results =
        acc ++ dispatchSeg env i (jobs.take (k - i)) := by
  intro jobs
  induction jobs with
  | nil =>
    intro i acc c
    simp [runLoopAux, dispatchSeg]
  | cons job rest ih =>
    intro i acc c
    by_cases h : k ≤ i
    · rw [runLoopAux]
      rw [show stopSeen (some k) i = true by simp [stopSeen]; omega]
      rw [if_pos rfl]
      rw [show k - i = 0 by omega, List.take_zero]
      simp [dispatchSeg]
    · obtain ⟨n, hn⟩ : ∃ n, k - i = n + 1 := ⟨k - i - 1, by omega⟩
      have hkn : k - (i + 1) = n := by omega
      rw [runLoopAux]
      rw [show stopSeen (some k) i = false by simp [stopSeen]; omega]
      simp only [Bool.false_eq_true, if_false]
      rw [ih (i + 1) _ (i + 1)]
      rw [hkn, hn, List.take_succ_cons]
      simp [dispatchSeg, List.append_assoc]

/-- Claim C2: if cancellation is requested after exactly k jobs of a
running session have completed and before job k+1 starts, the session
ends with exactly k JobResults (the dispatches of the first k
descriptors only), completed equals k, and the terminal status is
stopped, never complete; none of the remaining descriptors is
dispatched. -/
theorem C2_cancellation_truncation (env : Nat → HttpOutcome)
    (jobs : List Job) (k : Nat) (h : k < jobs.length) :
    let out := stream_jobs_run env (some k) jobs
    out.results = dispatchSeg env 0 (jobs.take k) ∧
    out.results.length = k ∧ out.completed = k ∧
    out.status = "stopped" ∧ out.status ≠ "complete" := by
  intro out
  have hrun := runLoopAux_stop env k jobs 0 [] 0 (Nat.zero_le k)
    (by simpa using h)
  have hres : out.results = dispatchSeg env 0 (jobs.take k) := by
    show (runLoopAux env (some k) jobs 0 [] 0).results = _
    rw [hrun]
    simp
  have hst : out.status = "stopped" := by
    show (runLoopAux env (some k) jobs 0 [] 0).status = _
    rw [hrun]
  have hcm : out.completed = k := by
    show (runLoopAux env (some k) jobs 0 [] 0).completed = _
    rw [hrun]
    simp only [Nat.sub_zero]
    by_cases h0 : k = 0
    · simp [h0]
    · simp [h0]
  refine ⟨hres, ?_, hcm, hst, ?_⟩
  · rw [hres, dispatchSeg_length, List.length_take]
    omega
  · rw [hst]
    decide

theorem C2_witness :
    1 < ([jobA, jobB] : List Job).length ∧
    (let out := stream_jobs_run envT (some 1) [jobA, jobB]
     out.results = dispatchSeg envT 0 (([jobA, jobB] : List Job).take 1) ∧
     out.results.length = 1 ∧ out.completed = 1 ∧
     out.status = "stopped" ∧ out.status ≠ "complete") :=
  ⟨by decide, C2_cancellation_truncation envT [jobA, jobB] 1 (by decide)⟩

/-- Claim C3: over one stream attachment, results are appended one per
executed descriptor in strict execution order, the job numbers being
exactly 1, 2, ..., length with no gaps; a run without cancellation
produces one result per descriptor and ends complete. -/
theorem C3_result_ordering (env : Nat → HttpOutcome) (stopAt : Option Nat)
    (jobs : List Job) :
    ((stream_jobs_run env stopAt jobs).results.map JobResult.job_number =
      List.range' 1 (stream_jobs_run env stopAt jobs).results.length) ∧
    (stopAt = none →
      (stream_jobs_run env stopAt jobs).results.length = jobs.length ∧
      (stream_jobs_run env stopAt jobs).status = "complete") := by
  cases stopAt with
  | none =>
    have hrun := runLoopAux_none env jobs 0 [] 0
    have hres : (stream_jobs_run env none jobs).results =
        dispatchSeg env 0 jobs := by
      show (runLoopAux env none jobs 0 [] 0).results = _
      rw [hrun]
      simp
    constructor
    · rw [hres, dispatchSeg_numbers, dispatchSeg_length]
    · intro _
      constructor
      · rw [hres, dispatchSeg_length]
      · show (runLoopAux env none jobs 0 [] 0).status = _
        rw [hrun]
  | some k =>
    have hres : (stream_jobs_run env (some k) jobs).results =
        dispatchSeg env 0 (jobs.take (k - 0)) := by
      show (runLoopAux env (some k) jobs 0 [] 0).results = _
      rw [runLoopAux_some_results]
      simp
    refine ⟨?_, fun hc => by cases hc⟩
    rw [hres, dispatchSeg_numbers, dispatchSeg_length]

theorem C3_witness :
    ((stream_jobs_run envT none [jobA, jobB]).results.map
        JobResult.job_number =
      List.range' 1 (stream_jobs_run envT none [jobA, jobB]).results.length) ∧
    (stream_jobs_run envT none [jobA, jobB]).results.length =
      ([jobA, jobB] : List Job).length ∧
    (stream_jobs_run envT none [jobA, jobB]).status = "complete" :=
  ⟨(C3_result_ordering envT none [jobA, jobB]).1,
   (C3_result_ordering envT none [jobA, jobB]).2 rfl⟩

/-- Claim C7 counterexample: a session cancelled before its first job
ends in status stopped, and the generator returns without scheduling
the 300-second cleanup, so the session is never removed from the
registry, contrary to the claim that Stopped sessions are evicted
after the grace window. -/
theorem C7_counterexample :
    stream_jobs_run envT (some 0) [jobA] =
      { results := [], completed := 0, status := "stopped",
        evictionDelay := none } ∧
    (none : Option Nat) ≠ some 300 :=
  ⟨rfl, by decide⟩

/-- Claim C7 as amended: eviction (after the fixed 300-second grace
window) is scheduled exactly on the Complete path, so a Complete
session remains queryable for the window and is then removed, a
session is never evicted from the Running state, and a Stopped
session is never scheduled for eviction at all. -/
theorem C7_eviction (env : Nat → HttpOutcome) (stopAt : Option Nat)
    (jobs : List Job) :
    ((stream_jobs_run env stopAt jobs).evictionDelay = some 300 ↔
      (stream_jobs_run env stopAt jobs).status = "complete") ∧
    ((stream_jobs_run env stopAt jobs).status = "stopped" →
      (stream_jobs_run env stopAt jobs).evictionDelay = none) := by
  have h := runLoopAux_terminal env stopAt jobs 0 [] 0
  rcases h with ⟨h1, h2⟩ | ⟨h1, h2⟩
  · refine ⟨⟨fun _ => h1, fun _ => h2⟩, fun hs => ?_⟩
    rw [show (stream_jobs_run env stopAt jobs).status = "complete" from h1]
      at hs
    exact absurd hs (by decide)
  · refine ⟨⟨fun he => ?_, fun hc => ?_⟩, fun _ => h2⟩
    · rw [show (stream_jobs_run env stopAt jobs).evictionDelay = none
          from h2] at he
      cases he
    · rw [show (stream_jobs_run env stopAt jobs).status = "stopped"
          from h1] at hc
      exact absurd hc (by decide)

theorem C7_witness :
    ((stream_jobs_run envT none [jobA]).evictionDelay = some 300 ↔
      (stream_jobs_run envT none [jobA]).status = "complete") ∧
    ((stream_jobs_run envT none [jobA]).status = "stopped" →
      (stream_jobs_run envT none [jobA]).evictionDelay = none) :=
  C7_eviction envT none [jobA]

theorem buildIndustryJobs_pos (ind : String) (cfg : IndustryConfig)
    (upload : Option String) (jobs : List Job)
    (hok : buildIndustryJobs ind cfg upload = Except.ok jobs)
    (hpos : 0 < cfg.num_jobs) :
    jobs = (List.range cfg.num_jobs.toNat).map (fun i =>
      { industry := ind,
        username := cyc (splitTrim cfg.usernames) i,
        printer := cyc (splitTrim cfg.printers) i,
        filename := normalizeFilename (cyc (splitTrim cfg.filenames) i),
        pdf_source := cfg.pdf_source,
        min_pages := cfg.min_pages,
        max_pages := cfg.max_pages,
        temp_path := if cfg.pdf_source = "upload" then upload else none }) := by
  unfold buildIndustryJobs at hok
  rw [if_neg (not_le.mpr hpos)] at hok
  simp only [] at hok
  split_ifs at hok
  all_goals first
    | exact Except.noConfusion hok
    | (injection hok with h
       first
         | (rw [if_pos ‹cfg.pdf_source = "upload"›]; exact h.symm)
         | (rw [if_neg ‹¬ cfg.pdf_source = "upload"›]; exact h.symm))

theorem buildIndustryJobs_nonpos (ind : String) (cfg : IndustryConfig)
    (upload : Option String) (hnp : cfg.num_jobs ≤ 0) :
    buildIndustryJobs ind cfg upload = Except.ok [] := by
  unfold buildIndustryJobs
  rw [if_pos hnp]

theorem buildIndustryJobs_length (ind : String) (cfg : IndustryConfig)
    (upload : Option String) (jobs : List Job)
    (hok : buildIndustryJobs ind cfg upload = Except.ok jobs) :
    jobs.length = cfg.num_jobs.toNat := by
  by_cases hpos : 0 < cfg.num_jobs
  · rw [buildIndustryJobs_pos ind cfg upload jobs hok hpos]
    simp
  · rw [buildIndustryJobs_nonpos ind cfg upload (by omega)] at hok
    injection hok with h
    rw [← h]
    rw [Int.toNat_of_nonpos (by omega)]
    rfl

theorem buildIndustryJobs_industry (ind : String) (cfg : IndustryConfig)
    (upload : Option String) (jobs : List Job)
    (hok : buildIndustryJobs ind cfg upload = Except.ok jobs) :
    ∀ j ∈ jobs, j.industry = ind := by
  by_cases hpos : 0 < cfg.num_jobs
  · rw [buildIndustryJobs_pos ind cfg upload jobs hok hpos]
    intro j hj
    rw [List.mem_map] at hj
    obtain ⟨i, _, hji⟩ := hj
    rw [← hji]
  · rw [buildIndustryJobs_nonpos ind cfg upload (by omega)] at hok
    injection hok with h
    rw [← h]
    intro j hj
    cases hj

theorem buildAll_length (configs : List (String × IndustryConfig))
    (uploads : String → Option String) (q : List Job)
    (hok : buildAll configs uploads = Except.ok q) :
    q.length = (configs.map (fun p => p.2.num_jobs.toNat)).sum := by
  induction configs generalizing q with
  | nil =>
    injection hok with h
    rw [← h]
    rfl
  | cons hd tl ih =>
    obtain ⟨ind, cfg⟩ := hd
    unfold buildAll at hok
    cases hb : buildIndustryJobs ind cfg (uploads ind) with
    | error e => rw [hb] at hok; exact Except.noConfusion hok
    | ok jobs =>
      rw [hb] at hok
      cases hr : buildAll tl uploads with
      | error e => rw [hr] at hok; exact Except.noConfusion hok
      | ok restJobs =>
        rw [hr] at hok
        injection hok with h
        rw [← h, List.length_append, List.map_cons, List.sum_cons,
          buildIndustryJobs_length ind cfg (uploads ind) jobs hb,
          ih restJobs hr]

theorem buildAll_industry_mem (configs : List (String × IndustryConfig))
    (uploads : String → Option String) (q : List Job)
    (hok : buildAll configs uploads = Except.ok q) :
    ∀ j ∈ q, j.industry ∈ configs.map Prod.fst := by
  induction configs generalizing q with
  | nil =>
    injection hok with h
    rw [← h]
    intro j hj
    cases hj
  | cons hd tl ih =>
    obtain ⟨ind, cfg⟩ := hd
    unfold buildAll at hok
    cases hb : buildIndustryJobs ind cfg (uploads ind) with
    | error e => rw [hb] at hok; exact Except.noConfusion hok
    | ok jobs =>
      rw [hb] at hok
      cases hr : buildAll tl uploads with
      | error e => rw [hr] at hok; exact Except.noConfusion hok
      | ok restJobs =>
        rw [hr] at hok
        injection hok with h
        rw [← h]
        intro j hj
        rw [List.mem_append] at hj
        rw [List.map_cons]
        rcases hj with hj | hj
        · rw [buildIndustryJobs_industry ind cfg (uploads ind) jobs hb j hj]
          exact List.mem_cons_self _ _
        · exact List.mem_cons_of_mem _ (ih restJobs hr j hj)

/-- Claim C5 counterexample: with filenames "report" the built
descriptor carries "report.pdf", not the raw list entry "report"; and
with a negative num_jobs alongside a positive one, the queue length
(1) differs from the sum of num_jobs over all configured industries
(-1 + 1 = 0). -/
theorem C5_counterexample :
    buildAll [("a", cfgNegative), ("b", cfgReport)] (fun _ => none) =
      Except.ok [⟨"b", "u", "p", "report.pdf", "generate", 1, 15, none⟩] ∧
    ("report.pdf" : String) ≠ "report" ∧
    ((1 : Int) ≠ cfgNegative.num_jobs + cfgReport.num_jobs) :=
  ⟨rfl, by decide, by decide⟩

/-- Claim C5 as amended: for every industry configuration with
num_jobs > 0 that passes validation the builder generates exactly
num_jobs descriptors, the i-th carrying username usernames[i mod len],
printer printers[i mod len] and filename filenames[i mod len]
normalized to end in .pdf, after trimming and comma-splitting; the
pre-shuffle queue length equals the sum over all configured industries
of max(num_jobs, 0), and every descriptor carries one of the
configured industry keys. -/
theorem C5_roundrobin :
    (∀ (ind : String) (cfg : IndustryConfig) (upload : Option String)
        (jobs : List Job),
      buildIndustryJobs ind cfg upload = Except.ok jobs →
      0 < cfg.num_jobs →
      jobs.length = cfg.num_jobs.toNat ∧
      jobs = (List.range cfg.num_jobs.toNat).map (fun i =>
        { industry := ind,
          username := cyc (splitTrim cfg.usernames) i,
          printer := cyc (splitTrim cfg.printers) i,
          filename := normalizeFilename (cyc (splitTrim cfg.filenames) i),
          pdf_source := cfg.pdf_source,
          min_pages := cfg.min_pages,
          max_pages := cfg.max_pages,
          temp_path := if cfg.pdf_source = "upload" then upload
            else none })) ∧
    (∀ (configs : List (String × IndustryConfig))
        (uploads : String → Option String) (q : List Job),
      buildAll configs uploads = Except.ok q →
      q.length = (configs.map (fun p => p.2.num_jobs.toNat)).sum ∧
      ∀ j ∈ q, j.industry ∈ configs.map Prod.fst) :=
  ⟨fun ind cfg upload jobs hok hpos =>
    ⟨buildIndustryJobs_length ind cfg upload jobs hok,
     buildIndustryJobs_pos ind cfg upload jobs hok hpos⟩,
   fun configs uploads q hok =>
    ⟨buildAll_length configs uploads q hok,
     buildAll_industry_mem configs uploads q hok⟩⟩

theorem C5_witness :
    (([⟨"b", "u", "p", "report.pdf", "generate", 1, 15, none⟩] :
        List Job).length = cfgReport.num_jobs.toNat ∧
     ([⟨"b", "u", "p", "report.pdf", "generate", 1, 15, none⟩] :
        List Job) = (List.range cfgReport.num_jobs.toNat).map (fun i =>
        { industry := "b",
          username := cyc (splitTrim cfgReport.usernames) i,
          printer := cyc (splitTrim cfgReport.printers) i,
          filename := normalizeFilename (cyc (splitTrim cfgReport.filenames) i),
          pdf_source := cfgReport.pdf_source,
          min_pages := cfgReport.min_pages,
          max_pages := cfgReport.max_pages,
          temp_path := if cfgReport.pdf_source = "upload" then none
            else none })) ∧
    (([⟨"b", "u", "p", "report.pdf", "generate", 1, 15, none⟩] :
        List Job).length =
      (([("a", cfgNegative), ("b", cfgReport)] :
        List (String × IndustryConfig)).map
          (fun p => p.2.num_jobs.toNat)).sum ∧
     ∀ j ∈ ([⟨"b", "u", "p", "report.pdf", "generate", 1, 15, none⟩] :
        List Job),
       j.industry ∈ ([("a", cfgNegative), ("b", cfgReport)] :
        List (String × IndustryConfig)).map Prod.fst) :=
  ⟨C5_roundrobin.1 "b" cfgReport none _ rfl (by decide),
   C5_roundrobin.2 [("a", cfgNegative), ("b", cfgReport)] (fun _ => none)
     _ rfl⟩

theorem buildIndustryJobs_error_msg (ind : String) (cfg : IndustryConfig)
    (upload : Option String) (e : String)
    (he : buildIndustryJobs ind cfg upload = Except.error e) :
    validationMessage ind e := by
  unfold buildIndustryJobs at he
  unfold validationMessage
  split_ifs at he
  all_goals simp only [] at he
  all_goals split_ifs at he
  all_goals first
    | exact Except.noConfusion he
    | (injection he with h
       simp [h.symm])

theorem buildIndustryJobs_ok_no_defect (ind : String) (cfg : IndustryConfig)
    (upload : Option String) (jobs : List Job)
    (hok : buildIndustryJobs ind cfg upload = Except.ok jobs)
    (hpos : 0 < cfg.num_jobs) : ¬ industryDefect cfg upload := by
  unfold buildIndustryJobs at hok
  rw [if_neg (not_le.mpr hpos)] at hok
  simp only [] at hok
  intro hdef
  rcases hdef with h | h | h | ⟨hsrc, hup⟩
  · rw [if_pos h] at hok
    exact Except.noConfusion hok
  · by_cases h1 : splitTrim cfg.usernames = []
    · rw [if_pos h1] at hok
      exact Except.noConfusion hok
    · rw [if_neg h1, if_pos h] at hok
      exact Except.noConfusion hok
  · by_cases h1 : splitTrim cfg.usernames = []
    · rw [if_pos h1] at hok
      exact Except.noConfusion hok
    · by_cases h2 : splitTrim cfg.printers = []
      · rw [if_neg h1, if_pos h2] at hok
        exact Except.noConfusion hok
      · rw [if_neg h1, if_neg h2, if_pos h] at hok
        exact Except.noConfusion hok
  · by_cases h1 : splitTrim cfg.usernames = []
    · rw [if_pos h1] at hok
      exact Except.noConfusion hok
    · by_cases h2 : splitTrim cfg.printers = []
      · rw [if_neg h1, if_pos h2] at hok
        exact Except.noConfusion hok
      · by_cases h3 : splitTrim cfg.filenames = []
        · rw [if_neg h1, if_neg h2, if_pos h3] at hok
          exact Except.noConfusion hok
        · rw [if_neg h1, if_neg h2, if_neg h3,
            if_pos (⟨hsrc, by rw [if_pos hsrc]; exact hup⟩ :
              cfg.pdf_source = "upload" ∧
              (if cfg.pdf_source = "upload" then upload else none) = none)]
            at hok
          exact Except.noConfusion hok

theorem buildAll_error_of_member (configs : List (String × IndustryConfig))
    (uploads : String → Option String) (ind : String)
    (cfg : IndustryConfig) (hmem : (ind, cfg) ∈ configs)
    (hpos : 0 < cfg.num_jobs) (hdef : industryDefect cfg (uploads ind)) :
    ∃ ind' e, (∃ cfg', (ind', cfg') ∈ configs) ∧
      buildAll configs uploads = Except.error e ∧
      validationMessage ind' e := by
  induction configs with
  | nil => cases hmem
  | cons hd tl ih =>
    obtain ⟨i0, c0⟩ := hd
    cases hb : buildIndustryJobs i0 c0 (uploads i0) with
    | error e0 =>
      refine ⟨i0, e0, ⟨c0, List.mem_cons_self _ _⟩, ?_, ?_⟩
      · unfold buildAll
        rw [hb]
      · exact buildIndustryJobs_error_msg i0 c0 (uploads i0) e0 hb
    | ok jobs0 =>
      rcases List.mem_cons.mp hmem with heq | htl
      · exfalso
        injection heq with hi hc
        subst hi
        subst hc
        exact buildIndustryJobs_ok_no_defect ind cfg (uploads ind) jobs0
          hb hpos hdef
      · obtain ⟨ind', e, ⟨cfg', hmem'⟩, herr, hmsg⟩ := ih htl
        refine ⟨ind', e, ⟨cfg', List.mem_cons_of_mem _ hmem'⟩, ?_, hmsg⟩
        unfold buildAll
        rw [hb, herr]

/-- Claim C6: session creation fails synchronously with a validation
error naming the industry and the missing field whenever some industry
with num_jobs > 0 has an empty username, printer or filename list
after trimming and comma-splitting, or has upload source with no
staged upload; and it fails with the no-jobs error when every industry
validates but the aggregate queue is empty.  The Except.error result
models that no session is registered and no job dispatched. -/
theorem C6_validation (url : String)
    (configs : List (String × IndustryConfig))
    (uploads : String → Option String) :
    (∀ (ind : String) (cfg : IndustryConfig), (ind, cfg) ∈ configs →
      0 < cfg.num_jobs → industryDefect cfg (uploads ind) →
      pyStripS url ≠ "" →
      ∃ ind' e, (∃ cfg', (ind', cfg') ∈ configs) ∧
        start_jobs_queue url configs uploads = Except.error e ∧
        validationMessage ind' e) ∧
    (pyStripS url ≠ "" → configs ≠ [] →
      buildAll configs uploads = Except.ok [] →
      start_jobs_queue url configs uploads =
        Except.error "No jobs to send") := by
  constructor
  · intro ind cfg hmem hpos hdef hurl
    obtain ⟨ind', e, hmem', herr, hmsg⟩ :=
      buildAll_error_of_member configs uploads ind cfg hmem hpos hdef
    refine ⟨ind', e, hmem', ?_, hmsg⟩
    unfold start_jobs_queue
    rw [if_neg hurl, if_neg (List.ne_nil_of_mem hmem), herr]
  · intro hurl hne hok
    unfold start_jobs_queue
    rw [if_neg hurl, if_neg hne, hok]
    rfl

theorem C6_witness :
    (∃ ind' e,
      (∃ cfg', (ind', cfg') ∈ ([("health", cfgNoUser)] :
        List (String × IndustryConfig))) ∧
      start_jobs_queue "http://x" [("health", cfgNoUser)] (fun _ => none) =
        Except.error e ∧
      validationMessage ind' e) ∧
    start_jobs_queue "http://x" [("h", cfgZero)] (fun _ => none) =
      Except.error "No jobs to send" :=
  ⟨(C6_validation "http://x" [("health", cfgNoUser)] (fun _ => none)).1
      "health" cfgNoUser (List.mem_singleton.mpr rfl) (by decide)
      (Or.inl rfl) (by decide),
   (C6_validation "http://x" [("h", cfgZero)] (fun _ => none)).2
      (by decide) (by decide) rfl⟩

theorem pyUniform_bounds (a b u : ℚ) (hab : a ≤ b) (h0 : 0 ≤ u)
    (h1 : u ≤ 1) : a ≤ pyUniform a b u ∧ pyUniform a b u ≤ b := by
  unfold pyUniform
  constructor
  · nlinarith
  · nlinarith

/-- Claim C8 counterexample: in random mode with max_delay = 0 the
draw rand = 9/10, u = 99/100 is possible (both lie in [0, 1)) and
yields the delay 3/10, which is below the claimed lower bound 1/2 and
outside the claimed stratum starting at 30, refuting the claimed
bounds for the random mode. -/
theorem C8_counterexample :
    generate_random_delay "random" 1 0.5 0 (9/10) (99/100) = 3/10 ∧
    (0 : ℚ) ≤ 9/10 ∧ (9/10 : ℚ) < 1 ∧
    (0 : ℚ) ≤ 99/100 ∧ (99/100 : ℚ) < 1 ∧
    ¬((1/2 : ℚ) ≤ 3/10) ∧ ¬((30 : ℚ) ≤ 3/10) ∧
    max 180 (0 : ℚ) = 180 := by
  refine ⟨?_, by norm_num, by norm_num, by norm_num, by norm_num,
    by norm_num, by norm_num, by norm_num⟩
  have hrf : ("random" : String) ≠ "fixed" := by decide
  unfold generate_random_delay pyUniform
  rw [if_neg hrf, if_pos rfl]
  norm_num

/-- Claim C8 as amended: fixed mode returns fixed_delay
unconditionally, any mode other than fixed and random returns 1, and
in random mode, provided max_delay is at least 30, every possible
draw lands in the stratum selected by the drawn probability (below
0.5: within [0.5, 3]; in [0.5, 0.8): within [3, 30]; at least 0.8:
within [30, min(max_delay, 180)]), and every such value lies within
[0.5, max(180, max_delay)]. -/
theorem C8_delay_policy (timing_mode : String)
    (fixed_delay min_delay max_delay rand u : ℚ) :
    (generate_random_delay "fixed" fixed_delay min_delay max_delay rand u =
      fixed_delay) ∧
    (timing_mode ≠ "fixed" → timing_mode ≠ "random" →
      generate_random_delay timing_mode fixed_delay min_delay max_delay
        rand u = 1) ∧
    (0 ≤ u → u ≤ 1 → 30 ≤ max_delay →
      (rand < 0.5 →
        1/2 ≤ generate_random_delay "random" fixed_delay min_delay
          max_delay rand u ∧
        generate_random_delay "random" fixed_delay min_delay max_delay
          rand u ≤ 3) ∧
      (0.5 ≤ rand → rand < 0.8 →
        3 ≤ generate_random_delay "random" fixed_delay min_delay
          max_delay rand u ∧
        generate_random_delay "random" fixed_delay min_delay max_delay
          rand u ≤ 30) ∧
      (0.8 ≤ rand →
        30 ≤ generate_random_delay "random" fixed_delay min_delay
          max_delay rand u ∧
        generate_random_delay "random" fixed_delay min_delay max_delay
          rand u ≤ min max_delay 180) ∧
      (1/2 ≤ generate_random_delay "random" fixed_delay min_delay
          max_delay rand u ∧
       generate_random_delay "random" fixed_delay min_delay max_delay
          rand u ≤ max 180 max_delay)) := by
  have hfix : generate_random_delay "fixed" fixed_delay min_delay
      max_delay rand u = fixed_delay := by
    unfold generate_random_delay
    rw [if_pos rfl]
  refine ⟨hfix, ?_, ?_⟩
  · intro h1 h2
    unfold generate_random_delay
    rw [if_neg h1, if_neg h2]
    norm_num
  · intro hu0 hu1 hmd
    have hrf : ("random" : String) ≠ "fixed" := by decide
    have hrand : generate_random_delay "random" fixed_delay min_delay
        max_delay rand u =
        (if rand < 0.5 then pyUniform 0.5 3.0 u
         else if rand < 0.8 then pyUniform 3.0 30.0 u
         else pyUniform 30.0 (min max_delay 180.0) u) := by
      unfold generate_random_delay
      rw [if_neg hrf, if_pos rfl]
    have hmin : (30.0 : ℚ) ≤ min max_delay 180.0 :=
      le_min (by linarith) (by norm_num)
    have hb1 := pyUniform_bounds 0.5 3.0 u (by norm_num) hu0 hu1
    have hb2 := pyUniform_bounds 3.0 30.0 u (by norm_num) hu0 hu1
    have hb3 := pyUniform_bounds 30.0 (min max_delay 180.0) u hmin hu0 hu1
    rw [hrand]
    have hminmax : min max_delay 180.0 ≤ max 180 max_delay :=
      le_trans (min_le_right _ _)
        (le_trans (by norm_num) (le_max_left _ _))
    refine ⟨?_, ?_, ?_, ?_⟩
    · intro h
      rw [if_pos h]
      exact ⟨by linarith [hb1.1], by linarith [hb1.2]⟩
    · intro h1 h2
      rw [if_neg (not_lt.mpr (by linarith)), if_pos h2]
      exact ⟨by linarith [hb2.1], by linarith [hb2.2]⟩
    · intro h
      rw [if_neg (not_lt.mpr (by linarith)),
        if_neg (not_lt.mpr (by linarith))]
      refine ⟨by linarith [hb3.1], ?_⟩
      have := hb3.2
      have hmm : min max_delay 180.0 = min max_delay 180 := by norm_num
      linarith [hb3.2]
    · rcases lt_or_le rand 0.5 with h | h
      · rw [if_pos h]
        have h3 : (3.0 : ℚ) ≤ max 180 max_delay :=
          le_trans (by norm_num) (le_max_left _ _)
        exact ⟨by linarith [hb1.1], by linarith [hb1.2]⟩
      · rcases lt_or_le rand 0.8 with h2 | h2
        · rw [if_neg (not_lt.mpr h), if_pos h2]
          have h30 : (30.0 : ℚ) ≤ max 180 max_delay :=
            le_trans (by norm_num) (le_max_left _ _)
          exact ⟨by linarith [hb2.1], by linarith [hb2.2]⟩
        · rw [if_neg (not_lt.mpr h), if_neg (not_lt.mpr h2)]
          exact ⟨by linarith [hb3.1], by linarith [hb3.2, hminmax]⟩

theorem C8_witness :
    generate_random_delay "fixed" 7 0.5 30 (9/10) 0 = 7 ∧
    generate_random_delay "exponential" 7 0.5 30 (9/10) 0 = 1 ∧
    (30 ≤ generate_random_delay "random" 7 0.5 30 (9/10) 0 ∧
     generate_random_delay "random" 7 0.5 30 (9/10) 0 ≤ min 30 180) ∧
    (1/2 ≤ generate_random_delay "random" 7 0.5 30 (9/10) 0 ∧
     generate_random_delay "random" 7 0.5 30 (9/10) 0 ≤ max 180 30) := by
  have h := C8_delay_policy "exponential" 7 0.5 30 (9/10) 0
  have h3 := h.2.2 (le_refl 0) zero_le_one (le_refl 30)
  exact ⟨h.1, h.2.1 (by decide) (by decide),
    h3.2.2.1 (by norm_num), h3.2.2.2⟩

/-- Claim C1: a dispatched job succeeds iff an HTTP response arrived
with status 200, 201 or 202; any received response echoes its status
code and the first 500 characters of its body; a timeout yields
success false, no status code and the excerpt Request timed out; any
other transport fault yields success false, no status code and the
fault description as excerpt. -/
theorem C1_dispatch_classification (outcome : HttpOutcome)
    (f u p ind : String) (n : Nat) :
    let r := send_single_job_result outcome f u p ind n
    ((r.success = true) ↔
      (∃ s b, outcome = HttpOutcome.response s b ∧
        (s = 200 ∨ s = 201 ∨ s = 202))) ∧
    (∀ s b, outcome = HttpOutcome.response s b →
      r.status_code = some s ∧ r.response = pyTake b 500) ∧
    (outcome = HttpOutcome.timeout →
      r.success = false ∧ r.status_code = none ∧
        r.response = "Request timed out") ∧
    (∀ d, outcome = HttpOutcome.fault d →
      r.success = false ∧ r.status_code = none ∧ r.response = d) := by
  cases outcome with
  | response s b =>
    refine ⟨?_, ?_, by simp, by simp⟩
    · simp [send_single_job_result, List.contains]
    · intro s' b' h
      injection h with h1 h2
      subst h1
      subst h2
      refine ⟨rfl, ?_⟩
      show (if b ≠ "" then pyTake b 500 else "") = pyTake b 500
      by_cases h : b = ""
      · subst h
        rfl
      · simp [h]
  | timeout =>
    exact ⟨by simp [send_single_job_result], by simp,
      by simp [send_single_job_result], by simp⟩
  | fault d =>
    exact ⟨by simp [send_single_job_result], by simp, by simp,
      by simp [send_single_job_result]⟩

theorem C1_witness :
    let r := send_single_job_result (HttpOutcome.response 201 "created")
      "a.pdf" "u1" "p1" "healthcare" 1
    ((r.success = true) ↔
      (∃ s b, HttpOutcome.response 201 "created" =
        HttpOutcome.response s b ∧ (s = 200 ∨ s = 201 ∨ s = 202))) ∧
    (∀ s b, HttpOutcome.response 201 "created" =
        HttpOutcome.response s b →
      r.status_code = some s ∧ r.response = pyTake b 500) ∧
    (HttpOutcome.response 201 "created" = HttpOutcome.timeout →
      r.success = false ∧ r.status_code = none ∧
        r.response = "Request timed out") ∧
    (∀ d, HttpOutcome.response 201 "created" = HttpOutcome.fault d →
      r.success = false ∧ r.status_code = none ∧ r.response = d) :=
  C1_dispatch_classification (HttpOutcome.response 201 "created")
    "a.pdf" "u1" "p1" "healthcare" 1

theorem lowerEndsWithPdf_append (s : String) :
    lowerEndsWithPdf (s ++ ".pdf") = true := by
  have hdata : (s ++ ".pdf").data = s.data ++ pdfChars := rfl
  unfold lowerEndsWithPdf pyEndsWith
  rw [hdata, List.map_append]
  have hlow : pdfChars.map Char.toLower = pdfChars := by decide
  rw [hlow, List.length_append, Nat.add_sub_cancel, List.drop_left]
  simp

/-- Claim C9: every built filename case-insensitively ends in .pdf; a
name already ending in .pdf in any letter case is left unchanged, and
any other name gets .pdf appended exactly once. -/
theorem C9_filename_norm (s : String) :
    lowerEndsWithPdf (normalizeFilename s) = true ∧
    (lowerEndsWithPdf s = true → normalizeFilename s = s) ∧
    (lowerEndsWithPdf s = false → normalizeFilename s = s ++ ".pdf") := by
  by_cases h : lowerEndsWithPdf s
  · exact ⟨by simp [normalizeFilename, h],
      fun _ => by simp [normalizeFilename, h],
      fun hf => by rw [h] at hf; cases hf⟩
  · refine ⟨?_, fun ht => by simp [ht] at h,
      fun _ => by simp [normalizeFilename, h]⟩
    have hn : normalizeFilename s = s ++ ".pdf" := by
      simp [normalizeFilename, h]
    rw [hn]
    exact lowerEndsWithPdf_append s

theorem C9_witness :
    (lowerEndsWithPdf "report.PDF" = true ∧
      normalizeFilename "report.PDF" = "report.PDF") ∧
    (lowerEndsWithPdf "report" = false ∧
      normalizeFilename "report" = "report" ++ ".pdf") :=
  ⟨⟨by decide, (C9_filename_norm "report.PDF").2.1 (by decide)⟩,
   ⟨by decide, (C9_filename_norm "report").2.2 (by decide)⟩⟩

theorem buildIndustryJobsSend_eq :
    buildIndustryJobsSend = buildIndustryJobs := rfl

theorem buildAllSend_eq (configs : List (String × IndustryConfig))
    (uploads : String → Option String) :
    buildAllSend configs uploads = buildAll configs uploads := by
  induction configs with
  | nil => rfl
  | cons hd tl ih =>
    obtain ⟨ind, cfg⟩ := hd
    simp only [buildAllSend, buildAll, buildIndustryJobsSend_eq, ih]

/-- Claim C10: the deprecated send-jobs endpoint and the start-jobs
endpoint perform identical validation and construct identical
pre-shuffle job queues on every input: the results, errors included,
agree field for field and in order. -/
theorem C10_endpoints_agree (url : String)
    (configs : List (String × IndustryConfig))
    (uploads : String → Option String) :
    send_jobs_queue url configs uploads =
      start_jobs_queue url configs uploads := by
  unfold send_jobs_queue start_jobs_queue
  rw [buildAllSend_eq]

/-- Claim C4 counterexample: stop-jobs on a session whose status is
ready (not running) still rewrites the status to stopping, so the
status field is not left unchanged outside the Running state. -/
theorem C4_counterexample :
    (stop_jobs [("s1", ⟨"ready", 0, 3, false⟩)] "s1" =
      ([("s1", ⟨"stopping", 0, 3, true⟩)], Except.ok ⟨0, 3⟩)) ∧
    ("ready" : String) ≠ "running" ∧ ("stopping" : String) ≠ "ready" :=
  ⟨rfl, by decide, by decide⟩

/-- Claim C4 as amended: the cancel operation on a known session id
returns the current completed and total snapshot immediately, sets
stop_requested to true and sets the status to stopping
unconditionally, whatever the current status; a repeated call is a
no-op, returning the same registry and the same snapshot; on an
unknown or evicted session id it fails with the not-found error and
leaves the registry unchanged.  It never touches the job loop, the
queue or the results. -/
theorem C4_cancel_request (registry : List (String × SessionState))
    (sid : String) :
    (∀ s, registry.lookup sid = some s →
      stop_jobs registry sid =
        (registry.map (fun p =>
          if p.1 = sid then
            (p.1, { s with stop_requested := true, status := "stopping" })
          else p),
         Except.ok { completed := s.completed, total := s.total }) ∧
      (stop_jobs registry sid).1.lookup sid =
        some { s with stop_requested := true, status := "stopping" } ∧
      stop_jobs (stop_jobs registry sid).1 sid =
        ((stop_jobs registry sid).1,
         Except.ok { completed := s.completed, total := s.total })) ∧
    (registry.lookup sid = none →
      stop_jobs registry sid = (registry, Except.error "Session not found")) := by
  constructor
  · intro s hs
    have h1 : stop_jobs registry sid =
        (registry.map (fun p =>
          if p.1 = sid then
            (p.1, { s with stop_requested := true, status := "stopping" })
          else p),
         Except.ok { completed := s.completed, total := s.total }) := by
      unfold stop_jobs
      rw [hs]
    have h2 : (stop_jobs registry sid).1.lookup sid =
        some { s with stop_requested := true, status := "stopping" } := by
      rw [h1]
      simp only []
      rw [lookup_update, hs]
      rfl
    exact ⟨h1, h2, stop_jobs_idem registry sid s hs⟩
  · intro hn
    unfold stop_jobs
    rw [hn]

theorem C4_witness :
    ([("s1", (⟨"running", 1, 3, false⟩ : SessionState))].lookup "s1" =
      some ⟨"running", 1, 3, false⟩ ∧
     stop_jobs [("s1", ⟨"running", 1, 3, false⟩)] "s1" =
      ([("s1", ⟨"stopping", 1, 3, true⟩)], Except.ok ⟨1, 3⟩)) ∧
    (([] : List (String × SessionState)).lookup "s1" = none ∧
     stop_jobs [] "s1" = ([], Except.error "Session not found")) := by
  constructor
  · refine ⟨rfl, ?_⟩
    have h := (C4_cancel_request [("s1", ⟨"running", 1, 3, false⟩)] "s1").1
      ⟨"running", 1, 3, false⟩ rfl
    exact h.1
  · exact ⟨rfl, (C4_cancel_request [] "s1").2 rfl⟩
